import Mathlib

/-!
Verification development for the pwa-passkey-apikeys-spike repository.

The embedding follows the current modular sources:
- `src/key-manager.js` (AEAD codec wrapper),
- `src/secure-cache.js` (obfuscated ephemeral cache, the fixed
  instance-scoped `cacheKey` version),
- `src/session-manager.js` (session registry),
- `src/app.js` (the `PasskeyKeyManager` orchestrator),
- `src/errors.js`, `src/providers.js`, `src/storage.js`.

JavaScript strings are Lean `String`s, byte buffers (`Uint8Array`,
`ArrayBuffer`) are `List Nat` of byte values, `Date.now()` is an explicit
`now : Nat` argument, and the randomness of `crypto.getRandomValues` is an
explicit function argument.  Platform primitives that are not repository
code (`crypto.subtle`, the WebAuthn authenticator, IndexedDB transactions)
are modelled at their interface boundary; each such definition carries a
doc comment saying so.
-/

/-- Byte buffers (`Uint8Array` / `ArrayBuffer` contents) as lists of byte
values. -/
abbrev Bytes := List Nat

/-! ### Association lists

IndexedDB object stores keyed by `provider`, the session registry's
`Map`, and the module-level `WeakMap` of `secure-cache.js` are all keyed
mutable maps; we embed them as association lists with
lookup/insert/delete. -/

/-- Lookup in an association list (`Map.get` / `store.get`). -/
def alook {κ α : Type} [DecidableEq κ] (k : κ) : List (κ × α) → Option α
  | [] => none
  | (k', v) :: rest => if k = k' then some v else alook k rest

/-- Remove a key (`Map.delete` / `store.delete`). -/
def adel {κ α : Type} [DecidableEq κ] (k : κ) : List (κ × α) → List (κ × α)
  | [] => []
  | (k', v) :: rest => if k = k' then adel k rest else (k', v) :: adel k rest

/-- Insert or replace a key (`Map.set` / `store.put`). -/
def aset {κ α : Type} [DecidableEq κ] (k : κ) (v : α) (l : List (κ × α)) :
    List (κ × α) :=
  adel k l ++ [(k, v)]

/-! ### UTF-8 codec

`TextEncoder` / `TextDecoder` used by `key-manager.js` and
`secure-cache.js`.  Bit operations of the UTF-8 layout are written with
division and remainder by powers of two (`n >>> 6` is `n / 64`,
`n & 0x3F` is `n % 64`, `0x80 | m` with `m < 64` is `128 + m`). -/

/-- UTF-8 encoding of a single scalar value (`TextEncoder`, per
character). -/
def utf8EncodeChar (c : Char) : Bytes :=
  if c.toNat < 0x80 then [c.toNat]
  else if c.toNat < 0x800 then
    [0xC0 + c.toNat / 0x40, 0x80 + c.toNat % 0x40]
  else if c.toNat < 0x10000 then
    [0xE0 + c.toNat / 0x1000, 0x80 + c.toNat / 0x40 % 0x40,
     0x80 + c.toNat % 0x40]
  else
    [0xF0 + c.toNat / 0x40000, 0x80 + c.toNat / 0x1000 % 0x40,
     0x80 + c.toNat / 0x40 % 0x40, 0x80 + c.toNat % 0x40]

/-- `new TextEncoder().encode(value)`. -/
def utf8Encode (s : String) : Bytes :=
  s.data.flatMap utf8EncodeChar

/-- Decode one UTF-8 sequence: leading byte `b0`, remaining input `rest`;
returns the scalar value and the bytes after the sequence. -/
def utf8DecodeOne (b0 : Nat) (rest : Bytes) : Option (Nat × Bytes) :=
  if b0 < 0x80 then some (b0, rest)
  else if b0 < 0xC0 then none
  else if b0 < 0xE0 then
    match rest with
    | b1 :: rest2 =>
      if 0x80 ≤ b1 ∧ b1 < 0xC0 ∧ 0x80 ≤ (b0 - 0xC0) * 0x40 + (b1 - 0x80) then
        some ((b0 - 0xC0) * 0x40 + (b1 - 0x80), rest2)
      else none
    | [] => none
  else if b0 < 0xF0 then
    match rest with
    | b1 :: b2 :: rest2 =>
      if 0x80 ≤ b1 ∧ b1 < 0xC0 ∧ 0x80 ≤ b2 ∧ b2 < 0xC0 ∧
          0x800 ≤ (b0 - 0xE0) * 0x1000 + (b1 - 0x80) * 0x40 + (b2 - 0x80) ∧
          ¬ (0xD800 ≤ (b0 - 0xE0) * 0x1000 + (b1 - 0x80) * 0x40 + (b2 - 0x80) ∧
             (b0 - 0xE0) * 0x1000 + (b1 - 0x80) * 0x40 + (b2 - 0x80) < 0xE000)
        then
        some ((b0 - 0xE0) * 0x1000 + (b1 - 0x80) * 0x40 + (b2 - 0x80), rest2)
      else none
    | _ => none
  else if b0 < 0xF8 then
    match rest with
    | b1 :: b2 :: b3 :: rest2 =>
      if 0x80 ≤ b1 ∧ b1 < 0xC0 ∧ 0x80 ≤ b2 ∧ b2 < 0xC0 ∧ 0x80 ≤ b3 ∧
          b3 < 0xC0 ∧
          0x10000 ≤ (b0 - 0xF0) * 0x40000 + (b1 - 0x80) * 0x1000 +
            (b2 - 0x80) * 0x40 + (b3 - 0x80) ∧
          (b0 - 0xF0) * 0x40000 + (b1 - 0x80) * 0x1000 +
            (b2 - 0x80) * 0x40 + (b3 - 0x80) < 0x110000 then
        some ((b0 - 0xF0) * 0x40000 + (b1 - 0x80) * 0x1000 +
          (b2 - 0x80) * 0x40 + (b3 - 0x80), rest2)
      else none
    | _ => none
  else none

/-- UTF-8 decoding (`TextDecoder`), with an explicit fuel argument for
the recursion (each step consumes at least one byte).  The browser decoder
substitutes U+FFFD on malformed input instead of failing; every input
decoded in this development is a well-formed encoding, so the `none`
branches are never exercised. -/
def utf8DecodeAux : Nat → Bytes → Option (List Char)
  | _, [] => some []
  | 0, _ :: _ => none
  | fuel + 1, b0 :: rest =>
    match utf8DecodeOne b0 rest with
    | none => none
    | some (n, rest2) => (utf8DecodeAux fuel rest2).map fun cs => Char.ofNat n :: cs

def utf8Decode (l : Bytes) : Option (List Char) :=
  utf8DecodeAux l.length l

/-- `new TextDecoder().decode(bytes)` at the `String` level. -/
def textDecode (bs : Bytes) : Option String :=
  (utf8Decode bs).map String.mk

/-! ### AEAD codec (`src/key-manager.js`)

`KeyManager` wraps `crypto.subtle` AES-GCM.  `crypto.subtle` is a platform
primitive, not repository code, so its encrypt/decrypt pair is modelled
from the spec at the interface boundary (authenticated stream cipher:
ciphertext is the plaintext XORed with a keystream derived from key and
IV, followed by an authentication tag over key, IV and ciphertext;
decryption verifies the tag and undoes the XOR, failing on any
key/IV/ciphertext mismatch of the tag). -/

/-- Modelled from the spec: the AES-GCM keystream byte at position `i`
for the given raw key and IV (`crypto.subtle` is not repository code; any
fixed keystream function yields the interface behavior §4.1 specifies). -/
def gcmKeystream (key iv : Bytes) (i : Nat) : Nat :=
  (key.sum * 31 + iv.sum * 17 + i * 131 + 7) % 256

/-- XOR a byte list against the keystream starting at position `i`
(counter-mode masking; applying it twice restores the input). -/
def ctrMask (key iv : Bytes) (i : Nat) : Bytes → Bytes
  | [] => []
  | b :: bs => (b ^^^ gcmKeystream key iv i) :: ctrMask key iv (i + 1) bs

/-- Modelled from the spec: the AES-GCM authentication tag over key, IV
and ciphertext. -/
def gcmTag (key iv ct : Bytes) : Bytes :=
  [(key.sum * 3 + iv.sum * 5 + ct.sum + 11) % 256]

/-- Modelled from the spec: `crypto.subtle.encrypt({name: 'AES-GCM', iv},
key, data)` — AEAD output is ciphertext followed by the authentication
tag. -/
def subtleEncrypt (key iv data : Bytes) : Bytes :=
  ctrMask key iv 0 data ++ gcmTag key iv (ctrMask key iv 0 data)

/-- Modelled from the spec: `crypto.subtle.decrypt({name: 'AES-GCM', iv},
key, payload)` — verify the trailing tag against key, IV and ciphertext,
then unmask; `none` is the tag-mismatch rejection. -/
def subtleDecrypt (key iv payload : Bytes) : Option Bytes :=
  match payload.getLast? with
  | none => none
  | some t =>
    if [t] = gcmTag key iv payload.dropLast then
      some (ctrMask key iv 0 payload.dropLast)
    else none

/-- `SESSION_CONFIG.defaultDuration`.  Modelled from the spec: the
`src/config.js` revision defining `SESSION_CONFIG` is not in the
snapshot; the session window is the 15-minute default that
`secure-cache.js` and the session-flow tests use. -/
def SESSION_CONFIG_defaultDuration : Nat := 15 * 60 * 1000

/-- `KeyManager.generateEncryptionKey` — a fresh 256-bit AES-GCM key; the
randomness of `crypto.subtle.generateKey` is the explicit `keyRand`
argument, and the key handle is its 32 raw bytes (`exportKey('raw')` of
the handle is the identity on this representation, and `importKey` of raw
bytes yields the same key). -/
def KeyManager.generateEncryptionKey (keyRand : Nat → Nat) : Bytes :=
  (List.range 32).map fun i => keyRand i % 256

/-- The `{encrypted, iv}` result of `KeyManager.encryptApiKey`. -/
structure EncResult where
  encrypted : Bytes
  iv : Bytes
deriving DecidableEq, Repr

/-- `KeyManager.encryptApiKey(apiKey, encryptionKey)`: fresh random
12-byte IV, UTF-8 encode, AES-GCM encrypt; returns `{encrypted, iv}`.
The randomness of `crypto.getRandomValues` is the explicit `ivRand`
argument. -/
def KeyManager.encryptApiKey (apiKey : String) (encryptionKey : Bytes)
    (ivRand : Nat → Nat) : EncResult :=
  { encrypted :=
      subtleEncrypt encryptionKey ((List.range 12).map fun i => ivRand i % 256)
        (utf8Encode apiKey)
    iv := (List.range 12).map fun i => ivRand i % 256 }

/-- Error classes of `src/errors.js`, with the `code`/`message` the
source attaches.  The file defines `AppError`, `PasskeyError`,
`StorageError`, `CryptoError`, `ProviderError`, `ValidationError` and
`AuthenticationError` — and no state-error class. -/
inductive AppErr
  | passkeyError (msg : String)
  | storageError (msg : String)
  | cryptoError (code : String)
  | providerError (msg : String)
  | validationError (msg : String)
deriving DecidableEq, Repr

instance {ε α : Type} [DecidableEq ε] [DecidableEq α] :
    DecidableEq (Except ε α) := fun x y =>
  match x, y with
  | .error a, .error b =>
    if h : a = b then isTrue (by rw [h])
    else isFalse fun hc => by cases hc; exact h rfl
  | .error _, .ok _ => isFalse fun hc => Except.noConfusion hc
  | .ok _, .error _ => isFalse fun hc => Except.noConfusion hc
  | .ok a, .ok b =>
    if h : a = b then isTrue (by rw [h])
    else isFalse fun hc => by cases hc; exact h rfl

/-- `KeyManager.decryptApiKey(encrypted, iv, decryptionKey)`: AES-GCM
decrypt then UTF-8 decode.  A `crypto.subtle.decrypt` rejection becomes a
`CryptoError('DECRYPTION_FAILED')`; `TextDecoder.decode` itself never
throws (the unreachable `none` branch of the model is mapped to the same
error). -/
def KeyManager.decryptApiKey (encrypted iv decryptionKey : Bytes) :
    Except AppErr String :=
  match subtleDecrypt decryptionKey iv encrypted with
  | none => .error (.cryptoError "DECRYPTION_FAILED")
  | some bs =>
    match textDecode bs with
    | none => .error (.cryptoError "DECRYPTION_FAILED")
    | some s => .ok s

/-! ### Obfuscated ephemeral cache (`src/secure-cache.js`)

The current source (the fixed revision, commit `8ae63a2`) gives each
`SecureCache` instance its own frozen `cacheKey` object created in the
constructor, used as the key into the module-level `WeakMap` named
`cache`.  We embed object identities of those frozen keys as natural
numbers allocated by a counter, and the module-level `WeakMap` as an
association list from identities to `{pad, data}` slots.  A pending
`setTimeout` is embedded as its deadline plus the data of its callback:
the timer callback is always `() => { this.clear(); if (onExpire)
onExpire(); }`, and the only `onExpire` ever passed is the session
manager's `() => { this.emit('expired', {provider});
this.sessions.delete(provider) }`, recorded by its provider name. -/

/-- A `{pad, data}` entry of the module-level `WeakMap`. -/
structure Slot where
  pad : Bytes
  data : Bytes
deriving DecidableEq, Repr

/-- A pending `setTimeout`: when it is due, and the provider whose
session-registry entry the `onExpire` callback removes (`none` when no
`onExpire` was supplied). -/
structure STimer where
  deadline : Nat
  expireProvider : Option String
deriving DecidableEq, Repr

/-- The module-level state of `secure-cache.js`: the `WeakMap` (keyed by
per-instance `cacheKey` identities) and the allocator for fresh
identities. -/
structure CWorld where
  nextKey : Nat
  slots : List (Nat × Slot)
deriving DecidableEq, Repr

/-- One `SecureCache` instance: its own `cacheKey` identity plus the
`this[CACHE_SYMBOL]` record `{timer, created}`. -/
structure SecureCache where
  cacheKey : Nat
  timer : Option STimer
  created : Option Nat
deriving DecidableEq, Repr

/-- The `SecureCache` constructor: allocate a fresh instance-scoped
`cacheKey` (`this.cacheKey = Object.freeze({})`), initialise
`this[CACHE_SYMBOL] = {timer: null, created: null}`, and clear any
previous `WeakMap` reference under that key. -/
def SecureCache.create (w : CWorld) : SecureCache × CWorld :=
  (⟨w.nextKey, none, none⟩,
   ⟨w.nextKey + 1, adel w.nextKey w.slots⟩)

/-- `SecureCache.resetTimer(expiryMs, onExpire)`: cancel any pending
timeout and schedule a new one. -/
def SecureCache.resetTimer (i : SecureCache) (now expiryMs : Nat)
    (onExpire : Option String) : SecureCache :=
  { i with timer := some ⟨now + expiryMs, onExpire⟩ }

/-- `SecureCache.store(value, expiryMs, onExpire)`: clear the existing
slot, XOR-mask the UTF-8 bytes of `value` against a fresh random pad of
the same length, store `{pad, data}` under the instance key, set
`created`, and (re)start the expiry timer.  `rand` is the randomness of
`crypto.getRandomValues`. -/
def SecureCache.store (i : SecureCache) (w : CWorld) (now : Nat)
    (rand : Nat → Nat) (value : String) (expiryMs : Nat)
    (onExpire : Option String) : SecureCache × CWorld :=
  let bytes := utf8Encode value
  let pad := (List.range bytes.length).map fun k => rand k % 256
  let data := List.zipWith (fun b p => b ^^^ p) bytes pad
  (SecureCache.resetTimer { i with created := some now } now expiryMs
     onExpire,
   { w with slots := aset i.cacheKey ⟨pad, data⟩ w.slots })

/-- `SecureCache.retrieve()`: `null` when no timer is pending or no slot
is stored; otherwise XOR the masked bytes back against the pad and
decode. -/
def SecureCache.retrieve (i : SecureCache) (w : CWorld) : Option String :=
  if i.timer.isNone then none
  else
    match alook i.cacheKey w.slots with
    | none => none
    | some s => textDecode (List.zipWith (fun b p => b ^^^ p) s.data s.pad)

/-- `SecureCache.has()`: `cache.has(this.cacheKey)`. -/
def SecureCache.has (i : SecureCache) (w : CWorld) : Bool :=
  (alook i.cacheKey w.slots).isSome

/-- `SecureCache.clear()`: overwrite the slot's pad and data with fresh
random bytes (not observable in this state model), drop the `WeakMap`
entry, cancel the pending timeout, reset `created`. -/
def SecureCache.clear (i : SecureCache) (w : CWorld) :
    SecureCache × CWorld :=
  ({ i with timer := none, created := none },
   { w with slots := adel i.cacheKey w.slots })

/-! ### Session registry (`src/session-manager.js`)

`SessionManager` keeps `this.sessions` (provider → `{cache, duration,
startTime}`) and emits lifecycle events.  Event emission is synchronous;
we record the emitted events in an append-only log inside the state and
additionally return the events emitted by each call, so that the
orchestrator's forwarding listeners can be applied to exactly those.
Timer-driven expiry is a separate step (`fireExpiry`), enabled when the
session's pending timeout is due. -/

/-- Events emitted by `SessionManager`, with the payload fields the
source passes (`started`/`extended` always carry `{provider, duration}`;
`expired`/`ended` carry `{provider}`; `cleared` carries `{}`). -/
inductive SMEv
  | started (provider : String) (duration : Nat)
  | extended (provider : String) (duration : Nat)
  | expired (provider : String)
  | ended (provider : String)
  | cleared
deriving DecidableEq, Repr

/-- One entry of `this.sessions`: `{cache, duration, startTime}`. -/
structure SessionEntry where
  cache : SecureCache
  duration : Nat
  startTime : Nat
deriving DecidableEq, Repr

/-- The `SessionManager` state: the shared secure-cache module state, the
`sessions` map and the log of emitted events. -/
structure SessionManager where
  world : CWorld
  sessions : List (String × SessionEntry)
  events : List SMEv
deriving DecidableEq, Repr

/-- A fresh `SessionManager` over a fresh secure-cache module state. -/
def SessionManager.empty : SessionManager :=
  ⟨⟨0, []⟩, [], []⟩

/-- `SessionManager.hasSession(provider)`:
`return this.sessions.has(provider);`. -/
def SessionManager.hasSession (provider : String) (st : SessionManager) :
    Bool :=
  (alook provider st.sessions).isSome

/-- `SessionManager.getApiKey(provider)`: `null` when no session,
otherwise the session cache's `retrieve()`. -/
def SessionManager.getApiKey (provider : String) (st : SessionManager) :
    Option String :=
  match alook provider st.sessions with
  | none => none
  | some e => SecureCache.retrieve e.cache st.world

/-- Whether the map entry for `provider` exists and its cache currently
holds a value (the right-hand side of the spec's `hasSession`
contract). -/
def SessionManager.cacheHolds (provider : String) (st : SessionManager) :
    Bool :=
  match alook provider st.sessions with
  | none => false
  | some e => SecureCache.has e.cache st.world

/-- `SessionManager.endSession(provider)`: if present, clear the cache,
remove the map entry, emit `ended`. -/
def SessionManager.endSession (provider : String) (st : SessionManager) :
    SessionManager × List SMEv :=
  match alook provider st.sessions with
  | none => (st, [])
  | some e =>
    let cw := SecureCache.clear e.cache st.world
    (⟨cw.2, adel provider st.sessions, st.events ++ [.ended provider]⟩,
     [.ended provider])

/-- `SessionManager.startSession(provider, apiKey, duration)`: end any
existing session, create a new `SecureCache`, store the key with an
`onExpire` that emits `expired` and deletes the entry, record
`{cache, duration, startTime}`, emit `started {provider, duration}`. -/
def SessionManager.startSession (now : Nat) (rand : Nat → Nat)
    (provider apiKey : String) (duration : Nat) (st : SessionManager) :
    SessionManager × List SMEv :=
  let e1 := SessionManager.endSession provider st
  let cw := SecureCache.create e1.1.world
  let sw := SecureCache.store cw.1 cw.2 now rand apiKey duration
    (some provider)
  (⟨sw.2,
    aset provider ⟨sw.1, duration, now⟩ e1.1.sessions,
    e1.1.events ++ [.started provider duration]⟩,
   e1.2 ++ [.started provider duration])

/-- `SessionManager.extendSession(provider)`: no-op if absent; otherwise
reset the cache timer to the session's configured duration, update
`startTime`, emit `extended {provider, duration}`. -/
def SessionManager.extendSession (now : Nat) (provider : String)
    (st : SessionManager) : SessionManager × List SMEv :=
  match alook provider st.sessions with
  | none => (st, [])
  | some e =>
    let c := SecureCache.resetTimer e.cache now e.duration (some provider)
    (⟨st.world,
      aset provider ⟨c, e.duration, now⟩ st.sessions,
      st.events ++ [.extended provider e.duration]⟩,
     [.extended provider e.duration])

/-- The state observed by `expired` listeners when the expiry timeout for
`provider`'s session fires: the timer callback has already run
`this.clear()` on the cache, and the `onExpire` body has emitted
`expired` but has not yet executed `this.sessions.delete(provider)`. -/
def SessionManager.expireMid (provider : String) (st : SessionManager) :
    SessionManager :=
  match alook provider st.sessions with
  | none => st
  | some e =>
    let cw := SecureCache.clear e.cache st.world
    ⟨cw.2,
     aset provider { e with cache := cw.1 } st.sessions,
     st.events ++ [.expired provider]⟩

/-- The complete expiry timeout for `provider`'s session: clear the
cache, emit `expired`, then delete the map entry. -/
def SessionManager.fireExpiry (provider : String) (st : SessionManager) :
    SessionManager × List SMEv :=
  match alook provider st.sessions with
  | none => (st, [])
  | some _ =>
    let stm := SessionManager.expireMid provider st
    (⟨stm.world, adel provider stm.sessions, stm.events⟩,
     [.expired provider])

/-! ### Orchestrator (`src/app.js`, `src/storage.js`, `src/providers.js`)

`PasskeyKeyManager` coordinates storage, the key manager, the provider
service, the passkey service and the session manager.  Storage records
are embedded as a structure of optional fields, because `storage.put`
replaces the whole object stored under the provider key with exactly the
fields the caller passes.  External collaborator outcomes (the WebAuthn
ceremonies of `passkey-service.js`, IndexedDB success/failure) and all
randomness are supplied by an `Oracle`.  The counters `authCount` and
`decryptCount` record how often `passkeyService.authenticate` and
`keyManager.decryptApiKey` are invoked — the observable interactions the
claims about the fast path and re-authentication are stated over. -/

/-- A record stored in the `keys` object store, as the union of the
shapes `createPasskey` and `storeKey` put (absent JS fields are
`none`). -/
structure ProviderRecord where
  credentialId : Option Bytes
  encKeyMaterial : Option Bytes
  iv : Option Bytes
  encrypted : Option Bytes
  created : Option Nat
  updated : Option Nat
deriving DecidableEq, Repr

/-- Events emitted by the `PasskeyKeyManager` facade.  Payload fields are
exactly the properties the source puts on the event object; an `Option`
field is a property that may be absent. -/
inductive OEv
  | initialized (success : Bool)
  | passkeyCreated (provider : String)
  | passkeyError (provider : String)
  | authenticated (provider : String)
  | keyStored (provider : String)
  | keyStoreError (provider : String)
  | keyRetrieved (provider : String) (fromCache : Bool)
  | keyRetrievalError (provider : String)
  | sessionStarted (provider : String) (duration : Option Nat)
  | sessionExtended (provider : String) (duration : Option Nat)
  | sessionExpired (provider : String)
  | providerDeleted (provider : String)
deriving DecidableEq, Repr

/-- The forwarding listeners registered in the `PasskeyKeyManager`
constructor: `expired → sessionExpired {provider}`, `started →
sessionStarted {provider}`, `extended → sessionExtended {provider}`.
Each listener destructures only `{provider}` from the registry payload,
so the forwarded payload has no `duration` property.  `ended` and
`cleared` have no forwarding listener. -/
def forwardEv : SMEv → Option OEv
  | .expired p => some (.sessionExpired p)
  | .started p _ => some (.sessionStarted p none)
  | .extended p _ => some (.sessionExtended p none)
  | .ended _ => none
  | .cleared => none

/-- Outcomes of the external collaborators and all randomness consumed by
one orchestrator operation: whether `passkeyService.createCredential`
and `passkeyService.authenticate` resolve, whether
`crypto.subtle.generateKey` and `crypto.subtle.encrypt` succeed, whether
`storage.put` succeeds, and the random bytes drawn. -/
structure Oracle where
  createOk : Bool
  authOk : Bool
  credRand : Nat → Nat
  genKeyOk : Bool
  keyRand : Nat → Nat
  encryptOk : Bool
  ivRand : Nat → Nat
  putOk : Bool
  padRand : Nat → Nat

/-- The `PasskeyKeyManager` state: the IndexedDB `keys` store, the
session manager, the two collaborator-invocation counters and the log of
facade events. -/
structure PasskeyKeyManager where
  storageDb : List (String × ProviderRecord)
  sessionManager : SessionManager
  authCount : Nat
  decryptCount : Nat
  log : List OEv
deriving DecidableEq, Repr

/-- A freshly initialised manager over empty storage. -/
def PasskeyKeyManager.init : PasskeyKeyManager :=
  ⟨[], SessionManager.empty, 0, 0, []⟩

/-- `String.prototype.toLowerCase()` on ASCII (the configured provider
identifiers are ASCII). -/
def jsToLowerCase (s : String) : String :=
  String.mk (s.data.map fun c =>
    if 65 ≤ c.toNat ∧ c.toNat ≤ 90 then Char.ofNat (c.toNat + 32) else c)

/-- `PasskeyKeyManager.validateProvider(provider)`: reject a falsy
provider, then `providerService.getProvider(provider)`, which throws
`ProviderError` unless `PROVIDERS[provider.toLowerCase()]` exists; the
configured providers are `openai`, `anthropic` and `google`. -/
def PasskeyKeyManager.validateProvider (provider : String) :
    Except AppErr Unit :=
  if provider = "" then
    .error (.validationError "Provider is required and must be a string")
  else if ["openai", "anthropic", "google"].contains
      (jsToLowerCase provider) then
    .ok ()
  else
    .error (.providerError ("Unknown provider: " ++ provider))

/-- `PasskeyKeyManager.authenticatePasskey(provider)`: validate, load the
record, fail `ValidationError('No passkey found - create one first')`
when there is no record or no `credentialId`, otherwise run the WebAuthn
assertion ceremony (counted in `authCount`) and emit `authenticated` on
success. -/
def PasskeyKeyManager.authenticatePasskey (ω : Oracle) (provider : String)
    (o : PasskeyKeyManager) : Except AppErr Unit × PasskeyKeyManager :=
  match PasskeyKeyManager.validateProvider provider with
  | .error e => (.error e, o)
  | .ok _ =>
    match alook provider o.storageDb with
    | none =>
      (.error (.validationError "No passkey found - create one first"), o)
    | some r =>
      match r.credentialId with
      | none =>
        (.error (.validationError "No passkey found - create one first"), o)
      | some _ =>
        let o1 := { o with authCount := o.authCount + 1 }
        if ω.authOk then
          (.ok (), { o1 with log := o1.log ++ [.authenticated provider] })
        else
          (.error (.passkeyError "Authentication ceremony failed"), o1)

/-- `PasskeyKeyManager.createPasskey(provider)`: validate, run the
WebAuthn creation ceremony, then `storage.put(provider, {credentialId,
created})` — replacing whatever record was stored under `provider`.  On
failure, emit `passkeyError` and rethrow; on success emit
`passkeyCreated`. -/
def PasskeyKeyManager.createPasskey (ω : Oracle) (now : Nat)
    (provider : String) (o : PasskeyKeyManager) :
    Except AppErr Unit × PasskeyKeyManager :=
  match PasskeyKeyManager.validateProvider provider with
  | .error e => (.error e, o)
  | .ok _ =>
    if ¬ ω.createOk then
      (.error (.passkeyError "Credential creation failed"),
       { o with log := o.log ++ [.passkeyError provider] })
    else if ¬ ω.putOk then
      (.error (.storageError "Store failed"),
       { o with log := o.log ++ [.passkeyError provider] })
    else
      let rawId := (List.range 32).map fun i => ω.credRand i % 256
      (.ok (),
       { o with
          storageDb := aset provider
            ⟨some rawId, none, none, none, some now, none⟩ o.storageDb
          log := o.log ++ [.passkeyCreated provider] })

/-- `PasskeyKeyManager.storeKey(provider, apiKey)`: validate provider and
key, authenticate, re-read the record's `credentialId`, generate a fresh
AES key, export it, encrypt, `storage.put` the new record (replacing the
old one wholesale), start a session with the plaintext, emit `keyStored`;
any failure inside the `try` emits `keyStoreError` and rethrows. -/
def PasskeyKeyManager.storeKey (ω : Oracle) (now : Nat)
    (provider apiKey : String) (o : PasskeyKeyManager) :
    Except AppErr Unit × PasskeyKeyManager :=
  match PasskeyKeyManager.validateProvider provider with
  | .error e => (.error e, o)
  | .ok _ =>
    if apiKey = "" then
      (.error (.validationError "API key is required and must be a string"),
       o)
    else
      let res : Except AppErr Unit × PasskeyKeyManager :=
        match PasskeyKeyManager.authenticatePasskey ω provider o with
        | (Except.error e, o1) => (.error e, o1)
        | (Except.ok _, o1) =>
          let credentialId :=
            (alook provider o1.storageDb).bind ProviderRecord.credentialId
          if ¬ ω.genKeyOk then
            (.error (.cryptoError "KEY_GENERATION_FAILED"), o1)
          else
            let encKey := KeyManager.generateEncryptionKey ω.keyRand
            let keyBuffer := encKey
            if ¬ ω.encryptOk then
              (.error (.cryptoError "ENCRYPTION_FAILED"), o1)
            else
              let er := KeyManager.encryptApiKey apiKey encKey ω.ivRand
              if ¬ ω.putOk then
                (.error (.storageError "Store failed"), o1)
              else
                let o2 := { o1 with
                  storageDb := aset provider
                    ⟨credentialId, some keyBuffer, some er.iv,
                     some er.encrypted, none, some now⟩ o1.storageDb }
                let sm := SessionManager.startSession now ω.padRand provider
                  apiKey SESSION_CONFIG_defaultDuration o2.sessionManager
                (.ok (),
                 { o2 with
                    sessionManager := sm.1
                    log := o2.log ++ (sm.2.filterMap forwardEv) ++
                      [.keyStored provider] })
      match res with
      | (Except.ok _, o') => (.ok (), o')
      | (Except.error e, o') =>
        (.error e, { o' with log := o'.log ++ [.keyStoreError provider] })

/-- The slow path of `PasskeyKeyManager.retrieveKey` (the `try` block
after the session-cache miss): authenticate, load the record, fail
`ValidationError('No stored key found')` when there is no record or no
`encrypted` field, import the key, decrypt (counted in `decryptCount`),
start a session, emit `keyRetrieved {fromCache: false}`; any failure
emits `keyRetrievalError` and rethrows. -/
def PasskeyKeyManager.retrieveKeySlow (ω : Oracle) (now : Nat)
    (provider : String) (o : PasskeyKeyManager) :
    Except AppErr String × PasskeyKeyManager :=
  let res : Except AppErr String × PasskeyKeyManager :=
    match PasskeyKeyManager.authenticatePasskey ω provider o with
    | (Except.error e, o1) => (.error e, o1)
    | (Except.ok _, o1) =>
      match alook provider o1.storageDb with
      | none => (.error (.validationError "No stored key found"), o1)
      | some r =>
        match r.encrypted with
        | none => (.error (.validationError "No stored key found"), o1)
        | some ct =>
          let decKey := r.encKeyMaterial.getD []
          let o2 := { o1 with decryptCount := o1.decryptCount + 1 }
          match KeyManager.decryptApiKey ct (r.iv.getD []) decKey with
          | .error e => (.error e, o2)
          | .ok apiKey =>
            let sm := SessionManager.startSession now ω.padRand provider
              apiKey SESSION_CONFIG_defaultDuration o2.sessionManager
            (.ok apiKey,
             { o2 with
                sessionManager := sm.1
                log := o2.log ++ (sm.2.filterMap forwardEv) ++
                  [.keyRetrieved provider false] })
  match res with
  | (Except.ok k, o') => (.ok k, o')
  | (Except.error e, o') =>
    (.error e, { o' with log := o'.log ++ [.keyRetrievalError provider] })

/-- `PasskeyKeyManager.retrieveKey(provider)`: validate, then check
`sessionManager.getApiKey(provider)`; a truthy cached key (a non-empty
string) is returned directly after `extendSession` and a `keyRetrieved
{fromCache: true}` event, with no authentication and no decryption;
otherwise run the slow path. -/
def PasskeyKeyManager.retrieveKey (ω : Oracle) (now : Nat)
    (provider : String) (o : PasskeyKeyManager) :
    Except AppErr String × PasskeyKeyManager :=
  match PasskeyKeyManager.validateProvider provider with
  | .error e => (.error e, o)
  | .ok _ =>
    match SessionManager.getApiKey provider o.sessionManager with
    | some k =>
      if k = "" then PasskeyKeyManager.retrieveKeySlow ω now provider o
      else
        let sm := SessionManager.extendSession now provider o.sessionManager
        (.ok k,
         { o with
            sessionManager := sm.1
            log := o.log ++ (sm.2.filterMap forwardEv) ++
              [.keyRetrieved provider true] })
    | none => PasskeyKeyManager.retrieveKeySlow ω now provider o

/-! ### Concrete scenario states

A fixed oracle (all collaborators succeed, arbitrary fixed randomness)
and the states after enrolling `openai` and storing the key `sk-abc`,
used by the concrete-run theorems below. -/

/-- All collaborator calls succeed; fixed randomness. -/
def demoOracle : Oracle :=
  ⟨true, true, fun i => i + 1, true, fun i => 7 * i + 3, true,
   fun i => 5 * i + 1, true, fun i => 3 * i + 2⟩

/-- State after `createPasskey('openai')` on a fresh manager. -/
def demoEnrolled : PasskeyKeyManager :=
  (PasskeyKeyManager.createPasskey demoOracle 10 "openai"
    PasskeyKeyManager.init).2

/-- State after `storeKey('openai', 'sk-abc')` on `demoEnrolled`; it has
an active session for `openai` caching `sk-abc`. -/
def demoStored : PasskeyKeyManager :=
  (PasskeyKeyManager.storeKey demoOracle 20 "openai" "sk-abc"
    demoEnrolled).2

/-- A registry with one session: `startSession('openai', 'sk-abc', 1000)`
on an empty registry at time 0. -/
def demoSM1 : SessionManager :=
  (SessionManager.startSession 0 (fun i => i) "openai" "sk-abc" 1000
    SessionManager.empty).1

/-! ### Registry well-formedness and the entry/cache invariant -/

/-- Well-formedness of the registry state: every session's cache key was
allocated by the module counter, and distinct sessions own distinct cache
keys (each `startSession` constructs its own `SecureCache`). -/
def SMWF (st : SessionManager) : Prop :=
  (∀ p e, alook p st.sessions = some e →
    e.cache.cacheKey < st.world.nextKey) ∧
  (∀ p e q f, alook p st.sessions = some e → alook q st.sessions = some f →
    p ≠ q → e.cache.cacheKey ≠ f.cache.cacheKey)

/-- The spec §3 Session invariant, as a predicate on registry states:
every entry of the `sessions` map has a cache that currently holds a
value. -/
def SMConsistent (st : SessionManager) : Prop :=
  ∀ p e, alook p st.sessions = some e →
    SecureCache.has e.cache st.world = true

/-- States reachable through completed `SessionManager` operations and
due timer expiries, starting from a fresh registry. -/
inductive SMReach : SessionManager → Prop
  | empty : SMReach SessionManager.empty
  | start (now : Nat) (rand : Nat → Nat) (p k : String) (d : Nat)
      {st : SessionManager} (h : SMReach st) :
      SMReach (SessionManager.startSession now rand p k d st).1
  | extend (now : Nat) (p : String) {st : SessionManager}
      (h : SMReach st) : SMReach (SessionManager.extendSession now p st).1
  | endS (p : String) {st : SessionManager} (h : SMReach st) :
      SMReach (SessionManager.endSession p st).1
  | fire (now : Nat) (p : String) {st : SessionManager}
      (e : SessionEntry) (t : STimer) (h : SMReach st)
      (he : alook p st.sessions = some e) (ht : e.cache.timer = some t)
      (hd : t.deadline ≤ now) :
      SMReach (SessionManager.fireExpiry p st).1

/-- Two `SecureCache` instances constructed independently, each storing a
value, then the first cleared: returns the first stored instance, the
second stored instance, the module state before the clear and the module
state after the clear. -/
def twoCacheScenario (w0 : CWorld) (v1 v2 : String) (n1 n2 t1 t2 : Nat)
    (r1 r2 : Nat → Nat) :
    SecureCache × SecureCache × CWorld × CWorld :=
  let a := SecureCache.create w0
  let b := SecureCache.create a.2
  let s1 := SecureCache.store a.1 b.2 n1 r1 v1 t1 none
  let s2 := SecureCache.store b.1 s1.2 n2 r2 v2 t2 none
  let cl := SecureCache.clear s1.1 s2.2
  (s1.1, s2.1, s2.2, cl.2)

/-- A provider record holding a full stored secret, and a manager state
with that record plus a live `openai` session, for the re-enrollment
scenario. -/
def preEnrollRecord : ProviderRecord :=
  ⟨some [9], some [1, 2], some [3], some [4, 5], none, some 20⟩

/-- Manager state: `openai` has a full record (credential and stored
secret) and a live session caching a decrypted key. -/
def preEnrollState : PasskeyKeyManager :=
  ⟨[("openai", preEnrollRecord)], demoSM1, 1, 0, []⟩

theorem alook_append {κ α : Type} [DecidableEq κ] (k : κ)
    (l₁ l₂ : List (κ × α)) :
    alook k (l₁ ++ l₂) = ((alook k l₁).rec (alook k l₂) fun v => some v) := by
  induction l₁ with
  | nil => simp [alook]
  | cons hd tl ih =>
    obtain ⟨k', v⟩ := hd
    by_cases h : k = k' <;> simp [alook, h, ih]

theorem alook_adel_self {κ α : Type} [DecidableEq κ] (k : κ)
    (l : List (κ × α)) : alook k (adel k l) = none := by
  induction l with
  | nil => rfl
  | cons hd tl ih =>
    obtain ⟨k', v⟩ := hd
    by_cases h : k = k'
    · subst h
      simpa [adel] using ih
    · simp [adel, alook, h, ih]

theorem alook_adel_ne {κ α : Type} [DecidableEq κ] {k k' : κ}
    (h : k' ≠ k) (l : List (κ × α)) : alook k' (adel k l) = alook k' l := by
  induction l with
  | nil => rfl
  | cons hd tl ih =>
    obtain ⟨k₀, v⟩ := hd
    by_cases hk : k = k₀
    · subst hk
      simp [adel, alook, h, ih]
    · by_cases hk' : k' = k₀ <;> simp [adel, alook, hk, hk', ih]

theorem alook_aset_self {κ α : Type} [DecidableEq κ] (k : κ) (v : α)
    (l : List (κ × α)) : alook k (aset k v l) = some v := by
  simp [aset, alook_append, alook_adel_self, alook]

theorem alook_aset_ne {κ α : Type} [DecidableEq κ] {k k' : κ}
    (h : k' ≠ k) (v : α) (l : List (κ × α)) :
    alook k' (aset k v l) = alook k' l := by
  simp [aset, alook_append, alook_adel_ne h, alook, h]
  cases alook k' l <;> simp

set_option maxRecDepth 2048 in
theorem utf8DecodeOne_length {b0 : Nat} {rest : Bytes} {n : Nat}
    {r2 : Bytes} (h : utf8DecodeOne b0 rest = some (n, r2)) :
    r2.length ≤ rest.length := by
  unfold utf8DecodeOne at h
  repeat' split at h
  all_goals
    first
    | (simp only [Option.some.injEq, Prod.mk.injEq] at h;
       obtain ⟨-, h2⟩ := h; subst h2; simp; try omega)
    | exact Option.noConfusion h

theorem utf8DecodeAux_congr :
    ∀ {f1 f2 : Nat} {l : Bytes}, l.length ≤ f1 → l.length ≤ f2 →
      utf8DecodeAux f1 l = utf8DecodeAux f2 l := by
  intro f1
  induction f1 with
  | zero =>
    intro f2 l h1 _
    have : l = [] := List.length_eq_zero.mp (Nat.le_zero.mp h1)
    subst this
    cases f2 <;> rfl
  | succ f ih =>
    intro f2 l h1 h2
    cases l with
    | nil => cases f2 <;> rfl
    | cons b0 rest =>
      cases f2 with
      | zero => simp at h2
      | succ f2' =>
        simp only [utf8DecodeAux]
        cases ho : utf8DecodeOne b0 rest with
        | none => rfl
        | some p =>
          obtain ⟨n, rest2⟩ := p
          have hl := utf8DecodeOne_length ho
          simp only [List.length_cons] at h1 h2
          dsimp only
          rw [@ih f2' rest2 (by omega) (by omega)]

theorem utf8DecodeOne_encodeChar (c : Char) (rest : Bytes) :
    ∃ b0 tl, utf8EncodeChar c = b0 :: tl ∧
      utf8DecodeOne b0 (tl ++ rest) = some (c.toNat, rest) := by
  have hv : c.toNat < 0xD800 ∨ (0xDFFF < c.toNat ∧ c.toNat < 0x110000) :=
    c.valid
  by_cases h1 : c.toNat < 0x80
  · refine ⟨c.toNat, [], by simp [utf8EncodeChar, h1], ?_⟩
    unfold utf8DecodeOne
    rw [if_pos h1]
    rfl
  · by_cases h2 : c.toNat < 0x800
    · refine ⟨0xC0 + c.toNat / 0x40, [0x80 + c.toNat % 0x40],
        by simp [utf8EncodeChar, h1, h2], ?_⟩
      unfold utf8DecodeOne
      rw [if_neg (by omega), if_neg (by omega), if_pos (by omega)]
      simp only [List.cons_append, List.nil_append]
      rw [if_pos (by refine ⟨by omega, by omega, by omega⟩)]
      simp only [Option.some.injEq, Prod.mk.injEq]
      exact ⟨by omega, trivial⟩
    · by_cases h3 : c.toNat < 0x10000
      · refine ⟨0xE0 + c.toNat / 0x1000,
          [0x80 + c.toNat / 0x40 % 0x40, 0x80 + c.toNat % 0x40],
          by simp [utf8EncodeChar, h1, h2, h3], ?_⟩
        unfold utf8DecodeOne
        rw [if_neg (by omega), if_neg (by omega), if_neg (by omega),
          if_pos (by omega)]
        simp only [List.cons_append, List.nil_append]
        rw [if_pos (by
          refine ⟨by omega, by omega, by omega, by omega, by omega, by omega⟩)]
        simp only [Option.some.injEq, Prod.mk.injEq]
        exact ⟨by omega, trivial⟩
      · refine ⟨0xF0 + c.toNat / 0x40000,
          [0x80 + c.toNat / 0x1000 % 0x40, 0x80 + c.toNat / 0x40 % 0x40,
           0x80 + c.toNat % 0x40],
          by simp [utf8EncodeChar, h1, h2, h3], ?_⟩
        unfold utf8DecodeOne
        rw [if_neg (by omega), if_neg (by omega), if_neg (by omega),
          if_neg (by omega), if_pos (by omega)]
        simp only [List.cons_append, List.nil_append]
        rw [if_pos (by
          refine ⟨by omega, by omega, by omega, by omega, by omega, by omega,
            by omega, by omega⟩)]
        simp only [Option.some.injEq, Prod.mk.injEq]
        exact ⟨by omega, trivial⟩

theorem utf8DecodeAux_encodeChar_append (c : Char) (rest : Bytes)
    (fuel : Nat) (hf : (utf8EncodeChar c ++ rest).length ≤ fuel) :
    utf8DecodeAux fuel (utf8EncodeChar c ++ rest) =
      (utf8DecodeAux fuel rest).map fun cs => c :: cs := by
  obtain ⟨b0, tl, he, hone⟩ := utf8DecodeOne_encodeChar c rest
  rw [he, List.cons_append] at hf ⊢
  cases fuel with
  | zero => simp at hf
  | succ f =>
    simp only [utf8DecodeAux, hone]
    have h1 : rest.length ≤ f := by
      simp only [List.length_cons, List.length_append] at hf
      omega
    rw [@utf8DecodeAux_congr f (f + 1) rest h1 (by omega),
      Char.ofNat_toNat c]

theorem utf8Decode_flatMap (cs : List Char) :
    utf8Decode (cs.flatMap utf8EncodeChar) = some cs := by
  suffices h : ∀ fuel (cs : List Char),
      (cs.flatMap utf8EncodeChar).length ≤ fuel →
      utf8DecodeAux fuel (cs.flatMap utf8EncodeChar) = some cs by
    exact h _ cs (Nat.le_refl _)
  intro fuel cs
  induction cs generalizing fuel with
  | nil =>
    intro _
    cases fuel <;> rfl
  | cons c tl ih =>
    intro hf
    rw [List.flatMap_cons] at hf ⊢
    rw [utf8DecodeAux_encodeChar_append c _ fuel hf]
    rw [ih fuel (by simp only [List.length_append] at hf; omega)]
    rfl

theorem textDecode_utf8Encode (s : String) :
    textDecode (utf8Encode s) = some s := by
  rw [utf8Encode, textDecode, utf8Decode_flatMap]
  cases s
  rfl

theorem ctrMask_ctrMask (key iv : Bytes) :
    ∀ (i : Nat) (bs : Bytes), ctrMask key iv i (ctrMask key iv i bs) = bs := by
  intro i bs
  induction bs generalizing i with
  | nil => rfl
  | cons b tl ih =>
    simp only [ctrMask, ih, List.cons.injEq, and_true]
    rw [Nat.xor_assoc, Nat.xor_self, Nat.xor_zero]

theorem subtleDecrypt_subtleEncrypt (key iv data : Bytes) :
    subtleDecrypt key iv (subtleEncrypt key iv data) = some data := by
  simp only [subtleEncrypt, subtleDecrypt, gcmTag, List.getLast?_concat,
    List.dropLast_concat, ctrMask_ctrMask, if_true, reduceIte]

/-- C9: for every plaintext string (the empty string, long strings and
multibyte Unicode included, since `String` ranges over all scalar-value
sequences), every key and every IV randomness,
`decryptApiKey(encryptApiKey(p, k).encrypted, encryptApiKey(p, k).iv, k)`
succeeds and returns `p` — AES-GCM unmasking undoes the masking and the
UTF-8 decode undoes the encode.  Keys produced by
`generateEncryptionKey` are byte lists, over which `k` ranges. -/
theorem decryptApiKey_encryptApiKey (apiKey : String)
    (encryptionKey : Bytes) (ivRand : Nat → Nat) :
    KeyManager.decryptApiKey
        (KeyManager.encryptApiKey apiKey encryptionKey ivRand).encrypted
        (KeyManager.encryptApiKey apiKey encryptionKey ivRand).iv
        encryptionKey = .ok apiKey := by
  rw [KeyManager.encryptApiKey, KeyManager.decryptApiKey]
  simp only [subtleDecrypt_subtleEncrypt, textDecode_utf8Encode]

theorem zipWith_xor_xor (bs : Bytes) :
    ∀ ps : Bytes, bs.length ≤ ps.length →
      List.zipWith (fun b p => b ^^^ p)
        (List.zipWith (fun b p => b ^^^ p) bs ps) ps = bs := by
  induction bs with
  | nil => intro ps _; simp
  | cons b tl ih =>
    intro ps hl
    cases ps with
    | nil => simp at hl
    | cons p ptl =>
      simp only [List.zipWith, List.cons.injEq]
      refine ⟨?_, ih ptl (by simpa using hl)⟩
      rw [Nat.xor_assoc, Nat.xor_self, Nat.xor_zero]

/-- A freshly stored value retrieves to itself (unmask plus decode). -/
theorem SecureCache.retrieve_store (i : SecureCache) (w : CWorld)
    (now : Nat) (rand : Nat → Nat) (value : String) (expiryMs : Nat)
    (onExpire : Option String) :
    SecureCache.retrieve (SecureCache.store i w now rand value expiryMs
        onExpire).1
      (SecureCache.store i w now rand value expiryMs onExpire).2 =
      some value := by
  rw [SecureCache.store, SecureCache.retrieve]
  simp only [SecureCache.resetTimer, Option.isNone_some, alook_aset_self]
  rw [if_neg (by simp)]
  rw [zipWith_xor_xor _ _ (by simp), textDecode_utf8Encode]

theorem endSession_preserves {st : SessionManager} (hw : SMWF st)
    (hc : SMConsistent st) (p : String) :
    SMWF (SessionManager.endSession p st).1 ∧
      SMConsistent (SessionManager.endSession p st).1 := by
  obtain ⟨hb, hd⟩ := hw
  cases hsp : alook p st.sessions with
  | none =>
    simp only [SessionManager.endSession, hsp]
    exact ⟨⟨hb, hd⟩, hc⟩
  | some e =>
    simp only [SessionManager.endSession, hsp]
    refine ⟨⟨?_, ?_⟩, ?_⟩
    · intro q f hq
      by_cases hqp : q = p
      · subst hqp
        rw [alook_adel_self] at hq
        cases hq
      · rw [alook_adel_ne hqp] at hq
        exact hb q f hq
    · intro q f q' f' hq hq' hne
      by_cases hqp : q = p
      · subst hqp
        rw [alook_adel_self] at hq
        cases hq
      · by_cases hq'p : q' = p
        · subst hq'p
          rw [alook_adel_self] at hq'
          cases hq'
        · rw [alook_adel_ne hqp] at hq
          rw [alook_adel_ne hq'p] at hq'
          exact hd q f q' f' hq hq' hne
    · intro q f hq
      by_cases hqp : q = p
      · subst hqp
        rw [alook_adel_self] at hq
        cases hq
      · rw [alook_adel_ne hqp] at hq
        have hne : f.cache.cacheKey ≠ e.cache.cacheKey :=
          hd q f p e hq hsp hqp
        simp only [SecureCache.has, SecureCache.clear, alook_adel_ne hne]
        exact hc q f hq

theorem endSession_nextKey (p : String) (st : SessionManager) :
    (SessionManager.endSession p st).1.world.nextKey = st.world.nextKey := by
  cases hsp : alook p st.sessions with
  | none => simp [SessionManager.endSession, hsp]
  | some e => simp [SessionManager.endSession, hsp, SecureCache.clear]

theorem startSession_preserves {st : SessionManager} (hw : SMWF st)
    (hc : SMConsistent st) (now : Nat) (rand : Nat → Nat) (p k : String)
    (d : Nat) :
    SMWF (SessionManager.startSession now rand p k d st).1 ∧
      SMConsistent (SessionManager.startSession now rand p k d st).1 := by
  obtain ⟨⟨hb1, hd1⟩, hc1⟩ := endSession_preserves hw hc p
  simp only [SessionManager.startSession, SecureCache.create,
    SecureCache.store, SecureCache.resetTimer]
  refine ⟨⟨?_, ?_⟩, ?_⟩
  · intro q f hq
    by_cases hqp : q = p
    · subst hqp
      rw [alook_aset_self] at hq
      cases hq
      simp
    · rw [alook_aset_ne hqp] at hq
      have := hb1 q f hq
      simp only
      omega
  · intro q f q' f' hq hq' hne
    by_cases hqp : q = p
    · subst hqp
      rw [alook_aset_self] at hq
      cases hq
      by_cases hq'p : q' = q
      · exact (hne hq'p.symm).elim
      · rw [alook_aset_ne hq'p] at hq'
        have := hb1 q' f' hq'
        simp only
        omega
    · rw [alook_aset_ne hqp] at hq
      by_cases hq'p : q' = p
      · subst hq'p
        rw [alook_aset_self] at hq'
        cases hq'
        have := hb1 q f hq
        simp only
        omega
      · rw [alook_aset_ne hq'p] at hq'
        exact hd1 q f q' f' hq hq' hne
  · intro q f hq
    by_cases hqp : q = p
    · subst hqp
      rw [alook_aset_self] at hq
      cases hq
      simp [SecureCache.has, alook_aset_self]
    · rw [alook_aset_ne hqp] at hq
      have hlt := hb1 q f hq
      have hnk : f.cache.cacheKey ≠
          (SessionManager.endSession p st).1.world.nextKey := by omega
      simp only [SecureCache.has, alook_aset_ne hnk, alook_adel_ne hnk]
      exact hc1 q f hq

theorem extendSession_preserves {st : SessionManager} (hw : SMWF st)
    (hc : SMConsistent st) (now : Nat) (p : String) :
    SMWF (SessionManager.extendSession now p st).1 ∧
      SMConsistent (SessionManager.extendSession now p st).1 := by
  obtain ⟨hb, hd⟩ := hw
  cases hsp : alook p st.sessions with
  | none =>
    simp only [SessionManager.extendSession, hsp]
    exact ⟨⟨hb, hd⟩, hc⟩
  | some e =>
    simp only [SessionManager.extendSession, hsp, SecureCache.resetTimer]
    refine ⟨⟨?_, ?_⟩, ?_⟩
    · intro q f hq
      by_cases hqp : q = p
      · subst hqp
        rw [alook_aset_self] at hq
        cases hq
        exact hb q e hsp
      · rw [alook_aset_ne hqp] at hq
        exact hb q f hq
    · intro q f q' f' hq hq' hne
      by_cases hqp : q = p
      · subst hqp
        rw [alook_aset_self] at hq
        cases hq
        by_cases hq'p : q' = q
        · exact (hne hq'p.symm).elim
        · rw [alook_aset_ne hq'p] at hq'
          exact hd q e q' f' hsp hq' hne
      · rw [alook_aset_ne hqp] at hq
        by_cases hq'p : q' = p
        · subst hq'p
          rw [alook_aset_self] at hq'
          cases hq'
          exact hd q f q' e hq hsp hne
        · rw [alook_aset_ne hq'p] at hq'
          exact hd q f q' f' hq hq' hne
    · intro q f hq
      by_cases hqp : q = p
      · subst hqp
        rw [alook_aset_self] at hq
        cases hq
        exact hc q e hsp
      · rw [alook_aset_ne hqp] at hq
        exact hc q f hq

theorem fireExpiry_preserves {st : SessionManager} (hw : SMWF st)
    (hc : SMConsistent st) (p : String) :
    SMWF (SessionManager.fireExpiry p st).1 ∧
      SMConsistent (SessionManager.fireExpiry p st).1 := by
  obtain ⟨hb, hd⟩ := hw
  cases hsp : alook p st.sessions with
  | none =>
    simp only [SessionManager.fireExpiry, hsp]
    exact ⟨⟨hb, hd⟩, hc⟩
  | some e =>
    simp only [SessionManager.fireExpiry, SessionManager.expireMid, hsp,
      SecureCache.clear]
    refine ⟨⟨?_, ?_⟩, ?_⟩
    · intro q f hq
      by_cases hqp : q = p
      · subst hqp
        rw [alook_adel_self] at hq
        cases hq
      · rw [alook_adel_ne hqp, alook_aset_ne hqp] at hq
        exact hb q f hq
    · intro q f q' f' hq hq' hne
      by_cases hqp : q = p
      · subst hqp
        rw [alook_adel_self] at hq
        cases hq
      · by_cases hq'p : q' = p
        · subst hq'p
          rw [alook_adel_self] at hq'
          cases hq'
        · rw [alook_adel_ne hqp, alook_aset_ne hqp] at hq
          rw [alook_adel_ne hq'p, alook_aset_ne hq'p] at hq'
          exact hd q f q' f' hq hq' hne
    · intro q f hq
      by_cases hqp : q = p
      · subst hqp
        rw [alook_adel_self] at hq
        cases hq
      · rw [alook_adel_ne hqp, alook_aset_ne hqp] at hq
        have hne : f.cache.cacheKey ≠ e.cache.cacheKey :=
          hd q f p e hq hsp hqp
        simp only [SecureCache.has, alook_adel_ne hne]
        exact hc q f hq

theorem SMReach_WF_consistent {st : SessionManager} (h : SMReach st) :
    SMWF st ∧ SMConsistent st := by
  induction h with
  | empty =>
    refine ⟨⟨?_, ?_⟩, ?_⟩
    · intro q f hq
      cases hq
    · intro q f q' f' hq hq' hne
      cases hq
    · intro q f hq
      cases hq
  | start now rand p k d h ih =>
    exact startSession_preserves ih.1 ih.2 now rand p k d
  | extend now p h ih =>
    exact extendSession_preserves ih.1 ih.2 now p
  | endS p h ih =>
    exact endSession_preserves ih.1 ih.2 p
  | fire now p e t h he ht hd ih =>
    exact fireExpiry_preserves ih.1 ih.2 p

theorem authenticatePasskey_frame (ω : Oracle) (p : String)
    (o : PasskeyKeyManager) :
    (PasskeyKeyManager.authenticatePasskey ω p o).2.storageDb =
        o.storageDb ∧
      (PasskeyKeyManager.authenticatePasskey ω p o).2.sessionManager =
        o.sessionManager := by
  unfold PasskeyKeyManager.authenticatePasskey
  repeat' split
  all_goals exact ⟨rfl, rfl⟩

theorem getApiKey_entry {p : String} {st : SessionManager} {k : String}
    (h : SessionManager.getApiKey p st = some k) :
    ∃ e, alook p st.sessions = some e ∧
      SecureCache.retrieve e.cache st.world = some k := by
  unfold SessionManager.getApiKey at h
  cases hs : alook p st.sessions with
  | none =>
    rw [hs] at h
    cases h
  | some e =>
    rw [hs] at h
    exact ⟨e, rfl, h⟩

/-- C1: for every provider with an active session whose cache holds a
plaintext, `retrieveKey` returns the cached plaintext and calls
`extendSession` (the registry emits `extended`), without invoking the
Credential Gate's `authenticate` (`authCount` unchanged) and without
decrypting (`decryptCount` unchanged) and without touching storage.  The
cached plaintext is non-empty, as every cached plaintext is: `storeKey`
rejects empty strings before caching, and the slow path caches only what
a stored record decrypts back to.  The witness is the spec's concrete
scenario: after `storeKey('openai', 'sk-abc')`, a `retrieveKey('openai')`
within the session window returns `'sk-abc'` with no authentication
ceremony. -/
theorem retrieveKey_fast_path (ω : Oracle) (now : Nat) (p k : String)
    (o : PasskeyKeyManager)
    (hv : PasskeyKeyManager.validateProvider p = .ok ())
    (hcache : SessionManager.getApiKey p o.sessionManager = some k)
    (hk : k ≠ "") :
    (PasskeyKeyManager.retrieveKey ω now p o).1 = .ok k ∧
    (PasskeyKeyManager.retrieveKey ω now p o).2.authCount = o.authCount ∧
    (PasskeyKeyManager.retrieveKey ω now p o).2.decryptCount =
      o.decryptCount ∧
    (PasskeyKeyManager.retrieveKey ω now p o).2.sessionManager =
      (SessionManager.extendSession now p o.sessionManager).1 ∧
    (∃ d, (PasskeyKeyManager.retrieveKey ω now p o).2.sessionManager.events
      = o.sessionManager.events ++ [SMEv.extended p d]) ∧
    (PasskeyKeyManager.retrieveKey ω now p o).2.storageDb = o.storageDb := by
  obtain ⟨e, he, hr⟩ := getApiKey_entry hcache
  unfold PasskeyKeyManager.retrieveKey
  rw [hv, hcache]
  dsimp only
  rw [if_neg hk]
  refine ⟨rfl, rfl, rfl, rfl, ⟨e.duration, ?_⟩, rfl⟩
  simp only [SessionManager.extendSession, he]

theorem retrieveKey_fast_path_witness :
    (PasskeyKeyManager.retrieveKey demoOracle 30 "openai" demoStored).1 =
        .ok "sk-abc" ∧
      (PasskeyKeyManager.retrieveKey demoOracle 30 "openai"
        demoStored).2.authCount = demoStored.authCount :=
  ⟨(retrieveKey_fast_path demoOracle 30 "openai" "sk-abc" demoStored
      (by decide) (by decide) (by decide)).1,
   (retrieveKey_fast_path demoOracle 30 "openai" "sk-abc" demoStored
      (by decide) (by decide) (by decide)).2.1⟩

/-- C2 counterexample: in a concrete run, the registry's `extended` event
carries the configured duration, but the facade's forwarded
`sessionExtended` payload has no `duration` property (`none`) — the
constructor's forwarding listener destructures only `{provider}`.  The
claim that every facade `sessionExtended` payload contains the configured
duration is therefore false on this run. -/
theorem sessionExtended_forwarding_drops_duration :
    (SessionManager.extendSession 30 "openai"
        demoStored.sessionManager).2 =
      [SMEv.extended "openai" SESSION_CONFIG_defaultDuration] ∧
    (PasskeyKeyManager.retrieveKey demoOracle 30 "openai" demoStored).2.log
      = demoStored.log ++ [OEv.sessionExtended "openai" none,
        OEv.keyRetrieved "openai" true] := by
  constructor
  · decide
  · decide

/-- C2 (amended): the registry's `extended` event always carries
`{provider, duration}` with the originally configured duration, on every
extension including repeated ones (the entry's `duration` is written at
`startSession` and preserved by `extendSession`); `started` likewise
carries `{provider, duration}`; but the facade's forwarding listeners
emit `sessionExtended`/`sessionStarted` with only `{provider}`, dropping
`duration`. -/
theorem extended_event_carries_configured_duration :
    (∀ (now : Nat) (p : String) (st : SessionManager) (e : SessionEntry),
      alook p st.sessions = some e →
      (SessionManager.extendSession now p st).2 =
        [SMEv.extended p e.duration] ∧
      (SessionManager.extendSession now p st).1.events =
        st.events ++ [SMEv.extended p e.duration] ∧
      alook p (SessionManager.extendSession now p st).1.sessions =
        some ⟨SecureCache.resetTimer e.cache now e.duration (some p),
          e.duration, now⟩) ∧
    (∀ (now : Nat) (rand : Nat → Nat) (p k : String) (d : Nat)
      (st : SessionManager),
      alook p (SessionManager.startSession now rand p k d st).1.sessions =
        some ⟨(SecureCache.store
            (SecureCache.create (SessionManager.endSession p st).1.world).1
            (SecureCache.create (SessionManager.endSession p st).1.world).2
            now rand k d (some p)).1, d, now⟩ ∧
      (SessionManager.startSession now rand p k d st).2 =
        (SessionManager.endSession p st).2 ++ [SMEv.started p d]) ∧
    (∀ (p : String) (d : Nat),
      forwardEv (SMEv.extended p d) = some (OEv.sessionExtended p none) ∧
      forwardEv (SMEv.started p d) = some (OEv.sessionStarted p none)) := by
  refine ⟨?_, ?_, ?_⟩
  · intro now p st e he
    simp [SessionManager.extendSession, he, alook_aset_self]
  · intro now rand p k d st
    simp [SessionManager.startSession, alook_aset_self]
  · intro p d
    exact ⟨rfl, rfl⟩

theorem extended_event_duration_witness :
    (SessionManager.extendSession 500 "openai" demoSM1).2 =
      [SMEv.extended "openai" 1000] :=
  (extended_event_carries_configured_duration.1 500 "openai" demoSM1
    ⟨⟨0, some ⟨1000, some "openai"⟩, some 0⟩, 1000, 0⟩ (by decide)).1

/-- C3 counterexample: in the state observed by `expired` listeners
(cache already cleared, map entry not yet deleted), `hasSession` returns
`true` although the entry's cache holds no value — so `hasSession` is not
equivalent to "entry exists AND its cache currently holds a value"; it is
plain `map.has`. -/
theorem hasSession_true_while_cache_empty :
    SessionManager.hasSession "openai"
        (SessionManager.expireMid "openai" demoSM1) = true ∧
      SessionManager.cacheHolds "openai"
        (SessionManager.expireMid "openai" demoSM1) = false := by
  constructor
  · decide
  · decide

/-- C3 (amended): `hasSession` returns exactly map membership, as a
genuine boolean: `false` before any session is started and `false` after
a session's expiry callback has completed; but it is not the conjunction
with "the cache currently holds a value" — a listener running during the
`expired` emission sees `hasSession = true` while `getApiKey` is already
`null`. -/
theorem hasSession_membership_boundaries :
    (∀ p, SessionManager.hasSession p SessionManager.empty = false) ∧
    (∀ (p : String) (st : SessionManager),
      SessionManager.hasSession p (SessionManager.fireExpiry p st).1 =
        false) ∧
    (∀ (p : String) (st : SessionManager) (e : SessionEntry),
      alook p st.sessions = some e →
      SessionManager.hasSession p (SessionManager.expireMid p st) = true ∧
      SessionManager.getApiKey p (SessionManager.expireMid p st) =
        none) := by
  refine ⟨?_, ?_, ?_⟩
  · intro p
    rfl
  · intro p st
    cases hsp : alook p st.sessions with
    | none =>
      simp [SessionManager.fireExpiry, hsp, SessionManager.hasSession]
    | some e =>
      simp [SessionManager.fireExpiry, SessionManager.expireMid, hsp,
        SessionManager.hasSession, alook_adel_self]
  · intro p st e he
    constructor
    · simp [SessionManager.expireMid, he, SessionManager.hasSession,
        alook_aset_self]
    · simp [SessionManager.expireMid, he, SessionManager.getApiKey,
        alook_aset_self, SecureCache.clear, SecureCache.retrieve]

theorem hasSession_membership_witness :
    SessionManager.hasSession "openai" (SessionManager.fireExpiry "openai"
        demoSM1).1 = false ∧
      SessionManager.hasSession "openai"
        (SessionManager.expireMid "openai" demoSM1) = true :=
  ⟨hasSession_membership_boundaries.2.1 "openai" demoSM1,
   (hasSession_membership_boundaries.2.2 "openai" demoSM1
      ⟨⟨0, some ⟨1000, some "openai"⟩, some 0⟩, 1000, 0⟩ (by decide)).1⟩

/-- C4 counterexample: the state observed synchronously by listeners
during the `expired` emission (the `expired` event is already in the log,
the cache is cleared, the map entry is still present) violates the
claimed invariant: the map entry exists while its cache is already
empty.  The expiry callback is not atomic from the listeners'
perspective: `SecureCache`'s timeout runs `this.clear()` first, then
`onExpire` emits `expired` before `sessions.delete(provider)`. -/
theorem expired_emission_sees_stale_entry :
    (SessionManager.expireMid "openai" demoSM1).events =
      demoSM1.events ++ [SMEv.expired "openai"] ∧
    (alook "openai"
      (SessionManager.expireMid "openai" demoSM1).sessions).isSome = true ∧
    SessionManager.cacheHolds "openai"
      (SessionManager.expireMid "openai" demoSM1) = false := by
  refine ⟨?_, ?_, ?_⟩
  · decide
  · decide
  · decide

/-- C4 (amended): in every state reachable through completed
`SessionManager` operations and timer expiries, a registry map entry
exists only with its cache holding a value (the expiry callback removes
the entry in the same step in which the cache clears); but the
intermediate state during the `expired` emission — observable by
listeners — has the entry present with an already-empty cache. -/
theorem reachable_registry_states_consistent (st : SessionManager)
    (h : SMReach st) : SMConsistent st :=
  (SMReach_WF_consistent h).2

theorem reachable_registry_states_consistent_witness :
    SMConsistent demoSM1 :=
  reachable_registry_states_consistent demoSM1
    (SMReach.start 0 (fun i => i) "openai" "sk-abc" 1000 SMReach.empty)

/-- C5: two independently constructed `SecureCache` instances have
disjoint state.  For any starting module state, values (including equal
strings), times, TTLs and randomness: the instances' `cacheKey`
identities differ, clearing the first leaves the second's `retrieve()`
result unchanged, and that result is the second stored value both before
and after the clear.  (Expiry of the first cache runs the same
`this.clear()`, so the same frame property applies.)  This is the fixed
instance-scoped `this.cacheKey = Object.freeze({})` revision of
`secure-cache.js`; the superseded revision in the same file used one
module-level `cacheKey` shared by all instances. -/
theorem secureCache_instance_isolation (w0 : CWorld) (v1 v2 : String)
    (n1 n2 t1 t2 : Nat) (r1 r2 : Nat → Nat) :
    (twoCacheScenario w0 v1 v2 n1 n2 t1 t2 r1 r2).1.cacheKey ≠
      (twoCacheScenario w0 v1 v2 n1 n2 t1 t2 r1 r2).2.1.cacheKey ∧
    SecureCache.retrieve (twoCacheScenario w0 v1 v2 n1 n2 t1 t2 r1 r2).2.1
        (twoCacheScenario w0 v1 v2 n1 n2 t1 t2 r1 r2).2.2.2 =
      SecureCache.retrieve (twoCacheScenario w0 v1 v2 n1 n2 t1 t2 r1 r2).2.1
        (twoCacheScenario w0 v1 v2 n1 n2 t1 t2 r1 r2).2.2.1 ∧
    SecureCache.retrieve (twoCacheScenario w0 v1 v2 n1 n2 t1 t2 r1 r2).2.1
        (twoCacheScenario w0 v1 v2 n1 n2 t1 t2 r1 r2).2.2.2 =
      some v2 := by
  dsimp only [twoCacheScenario]
  have hne : (SecureCache.store (SecureCache.create
      (SecureCache.create w0).2).1
      (SecureCache.store (SecureCache.create w0).1
        (SecureCache.create (SecureCache.create w0).2).2 n1 r1 v1 t1
        none).2 n2 r2 v2 t2 none).1.cacheKey ≠
      (SecureCache.store (SecureCache.create w0).1
        (SecureCache.create (SecureCache.create w0).2).2 n1 r1 v1 t1
        none).1.cacheKey := by
    simp only [SecureCache.create, SecureCache.store,
      SecureCache.resetTimer]
    omega
  have hsame : SecureCache.retrieve
      (SecureCache.store (SecureCache.create
        (SecureCache.create w0).2).1
        (SecureCache.store (SecureCache.create w0).1
          (SecureCache.create (SecureCache.create w0).2).2 n1 r1 v1 t1
          none).2 n2 r2 v2 t2 none).1
      (SecureCache.clear (SecureCache.store (SecureCache.create w0).1
          (SecureCache.create (SecureCache.create w0).2).2 n1 r1 v1 t1
          none).1
        (SecureCache.store (SecureCache.create
          (SecureCache.create w0).2).1
          (SecureCache.store (SecureCache.create w0).1
            (SecureCache.create (SecureCache.create w0).2).2 n1 r1 v1 t1
            none).2 n2 r2 v2 t2 none).2).2 =
      SecureCache.retrieve
        (SecureCache.store (SecureCache.create
          (SecureCache.create w0).2).1
          (SecureCache.store (SecureCache.create w0).1
            (SecureCache.create (SecureCache.create w0).2).2 n1 r1 v1 t1
            none).2 n2 r2 v2 t2 none).1
        (SecureCache.store (SecureCache.create
          (SecureCache.create w0).2).1
          (SecureCache.store (SecureCache.create w0).1
            (SecureCache.create (SecureCache.create w0).2).2 n1 r1 v1 t1
            none).2 n2 r2 v2 t2 none).2 := by
    rw [SecureCache.retrieve, SecureCache.retrieve, SecureCache.clear]
    rw [alook_adel_ne hne]
  refine ⟨fun hk => hne hk.symm, hsame, ?_⟩
  rw [hsame]
  exact SecureCache.retrieve_store _ _ _ _ _ _ _

/-! ### Theorems -/
/-- C6: `storeKey` runs the Credential Gate's `authenticate` on every
call — for any session-registry state, including an active session for
the provider — whenever the call gets past its synchronous input checks
and a credential is on record (with no credential or invalid input the
whole operation fails before any ceremony, which is not a session-caused
skip).  `authCount` rises by exactly one whether or not the ceremony,
the encryption or the write succeeds: the authentication step is never
bypassed by a session. -/
theorem storeKey_always_reauthenticates (ω : Oracle) (now : Nat)
    (p apiKey : String) (o : PasskeyKeyManager) (cid : Bytes)
    (hv : PasskeyKeyManager.validateProvider p = .ok ())
    (hk : apiKey ≠ "")
    (hcid : (alook p o.storageDb).bind ProviderRecord.credentialId =
      some cid) :
    (PasskeyKeyManager.storeKey ω now p apiKey o).2.authCount =
      o.authCount + 1 := by
  cases hrec : alook p o.storageDb with
  | none =>
    rw [hrec] at hcid
    cases hcid
  | some r =>
    rw [hrec] at hcid
    have hcid' : r.credentialId = some cid := by simpa using hcid
    unfold PasskeyKeyManager.storeKey PasskeyKeyManager.authenticatePasskey
    rw [hv]
    dsimp only
    rw [if_neg hk, hrec]
    dsimp only
    rw [hcid']
    dsimp only
    by_cases ha : ω.authOk
    · rw [if_pos ha]
      dsimp only
      by_cases hg : ω.genKeyOk
      · rw [if_neg (by simpa using hg)]
        by_cases he : ω.encryptOk
        · rw [if_neg (by simpa using he)]
          by_cases hp : ω.putOk
          · rw [if_neg (by simpa using hp)]
          · rw [if_pos (by simpa using hp)]
        · rw [if_pos (by simpa using he)]
      · rw [if_pos (by simpa using hg)]
    · rw [if_neg ha]

theorem storeKey_always_reauthenticates_witness :
    SessionManager.hasSession "openai" demoStored.sessionManager = true ∧
    (PasskeyKeyManager.storeKey demoOracle 50 "openai" "sk-new"
      demoStored).2.authCount = demoStored.authCount + 1 :=
  ⟨by decide,
   storeKey_always_reauthenticates demoOracle 50 "openai" "sk-new"
     demoStored ((List.range 32).map fun i => i + 1 % 256) (by decide)
     (by decide) (by decide)⟩

theorem storeKey_cases (ω : Oracle) (now : Nat) (p key : String)
    (o : PasskeyKeyManager) :
    (PasskeyKeyManager.storeKey ω now p key o).1 = .ok () ∨
      ((PasskeyKeyManager.storeKey ω now p key o).2.storageDb =
          o.storageDb ∧
        (PasskeyKeyManager.storeKey ω now p key o).2.sessionManager =
          o.sessionManager) := by
  unfold PasskeyKeyManager.storeKey
  cases hv : PasskeyKeyManager.validateProvider p with
  | error e =>
    right
    exact ⟨rfl, rfl⟩
  | ok u =>
    cases u
    dsimp only
    by_cases hk : key = ""
    · rw [if_pos hk]
      right
      exact ⟨rfl, rfl⟩
    · rw [if_neg hk]
      have hf := PasskeyKeyManager.authenticatePasskey ω p o
      cases hauth : PasskeyKeyManager.authenticatePasskey ω p o with
      | mk r1 o1 =>
        have hfr := authenticatePasskey_frame ω p o
        rw [hauth] at hfr
        cases r1 with
        | error e1 =>
          dsimp only
          right
          exact ⟨hfr.1, hfr.2⟩
        | ok u1 =>
          cases u1
          dsimp only
          by_cases hg : ω.genKeyOk
          · rw [if_neg (by simpa using hg)]
            by_cases he : ω.encryptOk
            · rw [if_neg (by simpa using he)]
              by_cases hp : ω.putOk
              · rw [if_neg (by simpa using hp)]
                left
                rfl
              · rw [if_pos (by simpa using hp)]
                right
                exact ⟨hfr.1, hfr.2⟩
            · rw [if_pos (by simpa using he)]
              right
              exact ⟨hfr.1, hfr.2⟩
          · rw [if_pos (by simpa using hg)]
            right
            exact ⟨hfr.1, hfr.2⟩

theorem retrieveKeySlow_cases (ω : Oracle) (now : Nat) (p : String)
    (o : PasskeyKeyManager) :
    (∃ k, (PasskeyKeyManager.retrieveKeySlow ω now p o).1 = .ok k) ∨
      ((PasskeyKeyManager.retrieveKeySlow ω now p o).2.storageDb =
          o.storageDb ∧
        (PasskeyKeyManager.retrieveKeySlow ω now p o).2.sessionManager =
          o.sessionManager) := by
  unfold PasskeyKeyManager.retrieveKeySlow
  cases hauth : PasskeyKeyManager.authenticatePasskey ω p o with
  | mk r1 o1 =>
    have hfr := authenticatePasskey_frame ω p o
    rw [hauth] at hfr
    cases r1 with
    | error e1 =>
      dsimp only
      right
      exact ⟨hfr.1, hfr.2⟩
    | ok u1 =>
      cases u1
      dsimp only
      cases hrec : alook p o1.storageDb with
      | none =>
        dsimp only
        right
        exact ⟨hfr.1, hfr.2⟩
      | some r =>
        dsimp only
        cases hct : r.encrypted with
        | none =>
          dsimp only
          right
          exact ⟨hfr.1, hfr.2⟩
        | some ct =>
          dsimp only
          cases hdec : KeyManager.decryptApiKey ct (r.iv.getD [])
              (r.encKeyMaterial.getD []) with
          | error e2 =>
            dsimp only
            right
            exact ⟨hfr.1, hfr.2⟩
          | ok apiKey =>
            dsimp only
            left
            exact ⟨apiKey, rfl⟩

theorem retrieveKey_cases (ω : Oracle) (now : Nat) (p : String)
    (o : PasskeyKeyManager) :
    (∃ k, (PasskeyKeyManager.retrieveKey ω now p o).1 = .ok k) ∨
      ((PasskeyKeyManager.retrieveKey ω now p o).2.storageDb =
          o.storageDb ∧
        (PasskeyKeyManager.retrieveKey ω now p o).2.sessionManager =
          o.sessionManager) := by
  unfold PasskeyKeyManager.retrieveKey
  cases hv : PasskeyKeyManager.validateProvider p with
  | error e =>
    right
    exact ⟨rfl, rfl⟩
  | ok u =>
    cases u
    dsimp only
    cases hc : SessionManager.getApiKey p o.sessionManager with
    | none =>
      dsimp only
      exact retrieveKeySlow_cases ω now p o
    | some k =>
      dsimp only
      by_cases hk : k = ""
      · rw [if_pos hk]
        exact retrieveKeySlow_cases ω now p o
      · rw [if_neg hk]
        left
        exact ⟨k, rfl⟩

/-- C7: failed orchestrator operations are atomic.  Whenever `storeKey`
or `retrieveKey` returns an error — validation, authentication,
key-generation, encryption, storage write, missing record or decryption
failure — the durable store and the session registry (its map, cache
module state and event log alike) are exactly as before the call; and
validation errors are raised before any side effect at all (the entire
manager state, counters and facade log included, is untouched). -/
theorem failed_operations_leave_state_unchanged (ω : Oracle) (now : Nat)
    (p key : String) (o : PasskeyKeyManager) :
    (∀ e, (PasskeyKeyManager.storeKey ω now p key o).1 = .error e →
      (PasskeyKeyManager.storeKey ω now p key o).2.storageDb =
          o.storageDb ∧
        (PasskeyKeyManager.storeKey ω now p key o).2.sessionManager =
          o.sessionManager) ∧
    (∀ e, (PasskeyKeyManager.retrieveKey ω now p o).1 = .error e →
      (PasskeyKeyManager.retrieveKey ω now p o).2.storageDb =
          o.storageDb ∧
        (PasskeyKeyManager.retrieveKey ω now p o).2.sessionManager =
          o.sessionManager) ∧
    (∀ e, PasskeyKeyManager.validateProvider p = .error e →
      (PasskeyKeyManager.storeKey ω now p key o).2 = o ∧
        (PasskeyKeyManager.retrieveKey ω now p o).2 = o) ∧
    (PasskeyKeyManager.validateProvider p = .ok () → key = "" →
      (PasskeyKeyManager.storeKey ω now p key o).2 = o) := by
  refine ⟨?_, ?_, ?_, ?_⟩
  · intro e he
    rcases storeKey_cases ω now p key o with hok | hfr
    · rw [he] at hok
      cases hok
    · exact hfr
  · intro e he
    rcases retrieveKey_cases ω now p o with ⟨k, hok⟩ | hfr
    · rw [he] at hok
      cases hok
    · exact hfr
  · intro e he
    constructor
    · unfold PasskeyKeyManager.storeKey
      rw [he]
    · unfold PasskeyKeyManager.retrieveKey
      rw [he]
  · intro hv hk
    unfold PasskeyKeyManager.storeKey
    rw [hv]
    dsimp only
    rw [if_pos hk]

theorem failed_operations_witness :
    (PasskeyKeyManager.storeKey
        ⟨true, false, fun i => i + 1, true, fun i => 7 * i + 3, true,
         fun i => 5 * i + 1, true, fun i => 3 * i + 2⟩ 50 "openai"
        "sk-new" demoStored).1 =
      .error (.passkeyError "Authentication ceremony failed") ∧
    (PasskeyKeyManager.storeKey
        ⟨true, false, fun i => i + 1, true, fun i => 7 * i + 3, true,
         fun i => 5 * i + 1, true, fun i => 3 * i + 2⟩ 50 "openai"
        "sk-new" demoStored).2.storageDb = demoStored.storageDb ∧
    (PasskeyKeyManager.storeKey
        ⟨true, false, fun i => i + 1, true, fun i => 7 * i + 3, true,
         fun i => 5 * i + 1, true, fun i => 3 * i + 2⟩ 50 "openai"
        "sk-new" demoStored).2.sessionManager =
      demoStored.sessionManager := by
  refine ⟨by decide, ?_, ?_⟩
  · exact ((failed_operations_leave_state_unchanged _ 50 "openai" "sk-new"
      demoStored).1 (.passkeyError "Authentication ceremony failed")
      (by decide)).1
  · exact ((failed_operations_leave_state_unchanged _ 50 "openai" "sk-new"
      demoStored).1 (.passkeyError "Authentication ceremony failed")
      (by decide)).2

/-- C8 counterexample: for an enrolled provider with no stored
ciphertext, `retrieveKey` fails with
`ValidationError('No stored key found')` — the error is classified as a
validation error (`AppErr.validationError`, mirroring `ValidationError`
with code `VALIDATION_ERROR` in `src/errors.js`).  `src/errors.js`
defines no state-error class at all, so the failure is not a
`StateError`/`NoStoredSecret` distinct from validation errors, contrary
to the claim. -/
theorem missing_secret_fails_as_validation_error :
    (PasskeyKeyManager.retrieveKey demoOracle 30 "openai"
        demoEnrolled).1 =
      .error (.validationError "No stored key found") := by
  decide

/-- C8 (amended): after a session-cache miss, for a provider whose
record has a credential but no ciphertext, `retrieveKey` (with the
ceremony succeeding) fails with `ValidationError('No stored key found')`;
for a provider with no record at all it fails earlier, inside
`authenticatePasskey`, with `ValidationError('No passkey found - create
one first')` — in both cases a `ValidationError`, not a distinct
state-error class (the source has none). -/
theorem retrieveKey_missing_secret_errors (ω : Oracle) (now : Nat)
    (p : String) (o : PasskeyKeyManager)
    (hv : PasskeyKeyManager.validateProvider p = .ok ())
    (hc : SessionManager.getApiKey p o.sessionManager = none)
    (ha : ω.authOk = true) :
    (∀ r cid, alook p o.storageDb = some r → r.credentialId = some cid →
      r.encrypted = none →
      (PasskeyKeyManager.retrieveKey ω now p o).1 =
        .error (.validationError "No stored key found")) ∧
    (alook p o.storageDb = none →
      (PasskeyKeyManager.retrieveKey ω now p o).1 =
        .error (.validationError "No passkey found - create one first")) := by
  constructor
  · intro r cid hrec hcid hct
    unfold PasskeyKeyManager.retrieveKey
    rw [hv]
    dsimp only
    rw [hc]
    dsimp only
    unfold PasskeyKeyManager.retrieveKeySlow
      PasskeyKeyManager.authenticatePasskey
    rw [hv]
    dsimp only
    rw [hrec]
    dsimp only
    rw [hcid]
    dsimp only
    rw [if_pos ha]
    dsimp only
    rw [hrec]
    dsimp only
    rw [hct]
  · intro hrec
    unfold PasskeyKeyManager.retrieveKey
    rw [hv]
    dsimp only
    rw [hc]
    dsimp only
    unfold PasskeyKeyManager.retrieveKeySlow
      PasskeyKeyManager.authenticatePasskey
    rw [hv]
    dsimp only
    rw [hrec]

theorem retrieveKey_missing_secret_witness :
    (PasskeyKeyManager.retrieveKey demoOracle 30 "openai"
        demoEnrolled).1 =
      .error (.validationError "No stored key found") :=
  (retrieveKey_missing_secret_errors demoOracle 30 "openai" demoEnrolled
      (by decide) (by decide) (by decide)).1
    ⟨some ((List.range 32).map fun i => i + 1 % 256), none, none, none,
      some 10, none⟩
    ((List.range 32).map fun i => i + 1 % 256) (by decide) (by decide)
    (by decide)

/-- C10: re-enrolling a provider that already has a stored secret
replaces the whole durable record: `createPasskey` succeeds and
`storage.put` writes exactly `{provider, credentialId, created}`, so the
previous `encKeyMaterial`, `iv` and `encrypted` fields are gone; the
session registry is untouched, so a live session for the provider keeps
running with the decrypted copy still cached, while the stored secret is
destroyed. -/
theorem createPasskey_replaces_record (ω : Oracle) (now : Nat)
    (p : String) (o : PasskeyKeyManager) (r : ProviderRecord)
    (hv : PasskeyKeyManager.validateProvider p = .ok ())
    (hcr : ω.createOk = true) (hput : ω.putOk = true)
    (hr : alook p o.storageDb = some r) :
    (PasskeyKeyManager.createPasskey ω now p o).1 = .ok () ∧
    alook p (PasskeyKeyManager.createPasskey ω now p o).2.storageDb =
      some ⟨some ((List.range 32).map fun i => ω.credRand i % 256), none,
        none, none, some now, none⟩ ∧
    (PasskeyKeyManager.createPasskey ω now p o).2.sessionManager =
      o.sessionManager := by
  unfold PasskeyKeyManager.createPasskey
  rw [hv]
  dsimp only
  rw [if_neg (by simp [hcr]), if_neg (by simp [hput])]
  exact ⟨rfl, by rw [alook_aset_self], rfl⟩

theorem createPasskey_replaces_record_witness :
    (PasskeyKeyManager.createPasskey demoOracle 60 "openai"
        preEnrollState).1 = .ok () ∧
    alook "openai" (PasskeyKeyManager.createPasskey demoOracle 60 "openai"
        preEnrollState).2.storageDb =
      some ⟨some ((List.range 32).map fun i => demoOracle.credRand i % 256),
        none, none, none, some 60, none⟩ ∧
    (PasskeyKeyManager.createPasskey demoOracle 60 "openai"
        preEnrollState).2.sessionManager = preEnrollState.sessionManager :=
  createPasskey_replaces_record demoOracle 60 "openai" preEnrollState
    preEnrollRecord (by decide) rfl rfl (by decide)
